/-
Verification of the live attendance session engine
(Django/Channels application: classes/redis_utils.py, classes/consumers.py,
classes/views.py, classes/models.py, attendance_system/middleware/jwt_auth.py).

The session store, the WebSocket consumer handlers, the finalization routine
and the JWT token extraction are shallowly embedded as pure Lean functions.
Python dicts (JSON objects) are modelled as insertion-ordered association
lists with unique keys; the Redis store is a function from class id to an
optional session; the relational database is a record of classes, users and
attendance rows.  Exceptions are modelled with Except, HTTP statuses as
naturals, and the frames a consumer emits as an explicit effect list.
-/
import Mathlib

namespace Attendance

/-! ## JSON-object dictionaries (Python dict semantics: insertion order,
    in-place overwrite) -/

/-- A JSON object / Python dict with string keys and string values. -/
abbrev Dict := List (String × String)

/-- Python `d.get(k)`: first (unique) binding of the key. -/
def dictGet (d : Dict) (k : String) : Option String :=
  match d with
  | [] => none
  | (k0, v0) :: rest => if k0 = k then some v0 else dictGet rest k

/-- Python `d[k] = v`: overwrite in place if present, append otherwise. -/
def dictSet (d : Dict) (k : String) (v : String) : Dict :=
  match d with
  | [] => [(k, v)]
  | (k0, v0) :: rest => if k0 = k then (k0, v) :: rest else (k0, v0) :: dictSet rest k v

/-- The keys of a dict, in order. -/
def dictKeys (d : Dict) : List String := d.map Prod.fst

/-- `sum(1 for v in d.values() if v == s)`. -/
def countStatus (d : Dict) (s : String) : Nat :=
  (d.filter (fun e => e.2 == s)).length

/-! ## Sessions and the Redis session store (classes/redis_utils.py)

    A stored session is the JSON value written by `start_attendance`:
    `{sessionId, classId, startedAt, attendance}`.  Every session ever
    written carries the `attendance` key (created empty at start), so the
    defensive `if "attendance" not in session` branch of `update_attendance`
    never fires and the field is plain here. -/

structure Session where
  sessionId : String
  classId : String
  startedAt : String
  attendance : Dict
deriving DecidableEq, Repr

/-- The Redis keyspace `attendance:session:<classId>`, one optional session
    per class id. -/
abbrev Store := String → Option Session

/-- `redis_client.set(key, json.dumps(session_data))`. -/
def set_active_session (st : Store) (class_id : String) (s : Session) : Store :=
  fun c => if c = class_id then some s else st c

/-- `redis_client.get(key)` followed by `json.loads`. -/
def get_active_session (st : Store) (class_id : String) : Option Session :=
  st class_id

/-- `redis_client.delete(key)`. -/
def clear_active_session (st : Store) (class_id : String) : Store :=
  fun c => if c = class_id then none else st c

/-- `redis_client.exists(key) > 0`. -/
def session_exists (st : Store) (class_id : String) : Bool :=
  (st class_id).isSome

/-- `update_attendance`: read the session, upsert
    `session["attendance"][student_id] = status`, write it back; no-op when
    no active session exists. -/
def update_attendance (st : Store) (class_id student_id status : String) : Store :=
  match st class_id with
  | some session =>
      set_active_session st class_id
        { session with attendance := dictSet session.attendance student_id status }
  | none => st

/-! ## The relational database (classes/models.py, users/models.py) -/

/-- A `Class` row: id, owning teacher id, many-to-many enrolled student ids. -/
structure Cls where
  id : String
  teacher : String
  students : List String
deriving DecidableEq, Repr

/-- An `Attendance` row (`session_id`, `class_instance`, `student`,
    `status`). -/
structure AttRecord where
  session_id : String
  class_id : String
  student : String
  status : String
deriving DecidableEq, Repr

/-- The database: class table, user table (ids) and attendance table. -/
structure DB where
  classes : List Cls
  users : List String
  records : List AttRecord
deriving DecidableEq, Repr

/-- `Class.objects.get(id=class_id)`, `DoesNotExist` as `none`. -/
def getClass (db : DB) (class_id : String) : Option Cls :=
  db.classes.find? (fun c => c.id == class_id)

/-- `User.objects.get(id=student_id)` succeeding, i.e. the id is a real user. -/
def userExists (db : DB) (student_id : String) : Bool :=
  db.users.contains student_id

/-- `Attendance.objects.create(...)` under the
    `unique_together = [["session_id", "student"]]` constraint of
    `Attendance.Meta`: a duplicate `(session_id, student)` pair makes the
    insert raise IntegrityError (the message stands in for the backend's),
    otherwise the row is appended. -/
def attCreate (db : DB) (r : AttRecord) : Except String DB :=
  if db.records.any (fun r0 => r0.session_id == r.session_id && r0.student == r.student) then
    Except.error "IntegrityError: duplicate (session_id, student)"
  else
    Except.ok { db with records := db.records ++ [r] }

/-! ## persist_attendance (classes/consumers.py) -/

/-- The `{"present": _, "absent": _, "total": _}` summary dict. -/
structure Summary where
  present : Nat
  absent : Nat
  total : Nat
deriving DecidableEq, Repr

/-- The defaulting loop of `persist_attendance`: for each enrolled student,
    `if student_id_str not in attendance_dict: attendance_dict[id] = "absent"`.
    Appending a missing key is exactly `dict[k] = v` on a dict without `k`. -/
def markAbsent (att : Dict) (enrolled : List String) : Dict :=
  match enrolled with
  | [] => att
  | s :: rest =>
      if (dictGet att s).isSome then markAbsent att rest
      else markAbsent (att ++ [(s, "absent")]) rest

/-- The creation loop of `persist_attendance`: for each `(student_id, status)`
    entry, try `User.objects.get`; `User.DoesNotExist` is caught and the entry
    skipped; a raised IntegrityError propagates, carrying the database with the
    rows already autocommitted before the failure. -/
def createRecords (db : DB) (session_id class_id : String) (entries : Dict) :
    Except (DB × String) DB :=
  match entries with
  | [] => Except.ok db
  | (sid, status) :: rest =>
      if userExists db sid then
        match attCreate db ⟨session_id, class_id, sid, status⟩ with
        | Except.error m => Except.error (db, m)
        | Except.ok db1 => createRecords db1 session_id class_id rest
      else
        createRecords db session_id class_id rest

/-- `persist_attendance(session)`: `Class.DoesNotExist` is caught and yields
    `None` (`Except.ok (db, none)`); otherwise unmarked enrolled students are
    defaulted to absent, one record is created per dict entry that resolves to
    a user, and the summary is computed from the defaulted dict.  A raised
    IntegrityError escapes as `Except.error` together with the partially
    updated database. -/
def persist_attendance (db : DB) (session : Session) :
    Except (DB × String) (DB × Option Summary) :=
  match getClass db session.classId with
  | none => Except.ok (db, none)
  | some cls =>
      match createRecords db session.sessionId session.classId
          (markAbsent session.attendance cls.students) with
      | Except.error e => Except.error e
      | Except.ok db1 =>
          Except.ok (db1,
            some ⟨countStatus (markAbsent session.attendance cls.students) "present",
              countStatus (markAbsent session.attendance cls.students) "absent",
              (markAbsent session.attendance cls.students).length⟩)

/-! ## The WebSocket consumer (classes/consumers.py) -/

/-- Outbound frames (`{"event": ..., "data": ...}`), one constructor per
    concrete shape the consumer sends. -/
inductive Frame where
  | connected (userId role : String)
  | error (message : String)
  | marked (classId studentId status : String)
  | summary (classId : String) (present absent total : Nat)
  | myAttendance (status : String)
  | done (classId message : String) (present absent total : Nat)
deriving DecidableEq, Repr

/-- Observable socket effects: a frame sent to the requesting socket, a frame
    broadcast through the channel-layer group, or closing the connection. -/
inductive Effect where
  | sendSelf (f : Frame)
  | broadcast (f : Frame)
  | close
deriving DecidableEq, Repr

/-- The mutable world a handler touches: the Redis store and the database. -/
structure GState where
  store : Store
  db : DB

/-- The payload fields the handlers read with `payload.get(...)`. -/
structure Payload where
  classId : Option String
  studentId : Option String
  status : Option String
deriving DecidableEq, Repr

/-- Python truthiness of `payload.get(k)`: `None` and `""` are falsy. -/
def truthy : Option String → Bool
  | none => false
  | some s => !s.isEmpty

/-- The result of parsing an inbound text frame: `json.loads` failure, or a
    decoded envelope with `data.get("event")` and `data.get("data", {})`. -/
inductive Inbound where
  | malformed
  | envelope (event : Option String) (payload : Payload)
deriving DecidableEq, Repr

/-- `f"Unknown event: {event}"` renders a missing event as Python's `None`. -/
def eventText : Option String → String
  | some s => s
  | none => "None"

/-- `send_error`: a single ERROR frame to the requesting socket. -/
def send_error (message : String) : List Effect :=
  [Effect.sendSelf (Frame.error message)]

/-- `handle_attendance_marked`: teacher-only; missing fields rejected; then
    the session is updated in Redis and the mark broadcast. -/
def handle_attendance_marked (role : String) (st : GState) (p : Payload) :
    GState × List Effect :=
  if role ≠ "TEACHER" then (st, send_error "Only teachers can mark attendance")
  else if !(truthy p.classId && truthy p.studentId && truthy p.status) then
    (st, send_error "Missing classId, studentId or status")
  else if !session_exists st.store (p.classId.getD "") then
    (st, send_error "No active attendance session for this class")
  else
    ({ st with store :=
        (update_attendance st.store (p.classId.getD "") (p.studentId.getD "")
          (p.status.getD "")) },
     [Effect.broadcast (Frame.marked (p.classId.getD "") (p.studentId.getD "")
        (p.status.getD ""))])

/-- `handle_today_summary`: teacher-only; counts derived from the attendance
    mapping at query time and broadcast. -/
def handle_today_summary (role : String) (st : GState) (p : Payload) :
    GState × List Effect :=
  if role ≠ "TEACHER" then (st, send_error "Only teachers can request attendance summary")
  else if !truthy p.classId then (st, send_error "Class ID required")
  else
    match get_active_session st.store (p.classId.getD "") with
    | none => (st, send_error "No active attendance session for this class")
    | some session =>
        (st, [Effect.broadcast (Frame.summary (p.classId.getD "")
          (countStatus session.attendance "present")
          (countStatus session.attendance "absent")
          session.attendance.length)])

/-- `handle_my_attendance`: student-only; unicast of the student's own status
    with the "not yet updated" sentinel. -/
def handle_my_attendance (role selfId : String) (st : GState) (p : Payload) :
    GState × List Effect :=
  if role ≠ "STUDENT" then (st, send_error "Only students can request their own attendance")
  else if !truthy p.classId then (st, send_error "Class ID required")
  else
    match get_active_session st.store (p.classId.getD "") with
    | none => (st, [Effect.sendSelf (Frame.myAttendance "not yet updated")])
    | some session =>
        (st, [Effect.sendSelf (Frame.myAttendance
          ((dictGet session.attendance selfId).getD "not yet updated"))])

/-- `handle_done`: teacher-only; persists the session and clears it from
    Redis only when `persist_attendance` returned a summary.  An exception
    raised inside persistence propagates (`Except.error`) with the partially
    written database; the Redis store is untouched on every failure path. -/
def handle_done (role : String) (st : GState) (p : Payload) :
    Except (DB × String) (GState × List Effect) :=
  if role ≠ "TEACHER" then
    Except.ok (st, send_error "Only teachers can end attendance session")
  else if !truthy p.classId then Except.ok (st, send_error "Class ID required")
  else
    match get_active_session st.store (p.classId.getD "") with
    | none => Except.ok (st, send_error "No active attendance session for this class")
    | some session =>
        match persist_attendance st.db session with
        | Except.error e => Except.error e
        | Except.ok (db1, none) =>
            Except.ok ({ st with db := db1 }, send_error "Failed to persist attendance")
        | Except.ok (db1, some summary) =>
            Except.ok ({ store := clear_active_session st.store (p.classId.getD ""), db := db1 },
              [Effect.broadcast (Frame.done (p.classId.getD "") "Attendance persisted"
                summary.present summary.absent summary.total)])

/-- `receive`: parse, dispatch on the event string, convert every failure to
    an ERROR frame.  `json.JSONDecodeError` gives the generic message, an
    unrecognized event the naming message, and any exception escaping a
    handler its own message; no branch closes the socket. -/
def receive (role selfId : String) (st : GState) (inb : Inbound) :
    GState × List Effect :=
  match inb with
  | Inbound.malformed => (st, send_error "Invalid JSON format")
  | Inbound.envelope event p =>
      if event = some "ATTENDANCE_MARKED" then handle_attendance_marked role st p
      else if event = some "TODAY_SUMMARY" then handle_today_summary role st p
      else if event = some "MY_ATTENDANCE" then handle_my_attendance role selfId st p
      else if event = some "DONE" then
        match handle_done role st p with
        | Except.ok r => r
        | Except.error (db1, m) => ({ st with db := db1 }, send_error m)
      else (st, send_error ("Unknown event: " ++ eventText event))

/-- `connect`: an unauthenticated scope is accepted, sent one ERROR frame and
    closed; an authenticated one joins the group and gets CONNECTED. -/
def connect (userId : Option String) (role : String) : List Effect :=
  match userId with
  | none => send_error "Authentication required. Please provide a valid JWT token." ++
      [Effect.close]
  | some uid => [Effect.sendSelf (Frame.connected uid role)]

/-! ## The start-attendance HTTP endpoint (classes/views.py) -/

/-- `start_attendance` after serializer validation: 404 when the class does
    not exist, 403 when the requester is not its teacher, 400 when a session
    already exists, otherwise the fresh session is stored and 200 returned.
    `new_sid` and `new_ts` stand for `uuid.uuid4()` and `datetime.now()`. -/
def start_attendance (st : GState) (requester class_id new_sid new_ts : String) :
    Nat × GState :=
  match getClass st.db class_id with
  | none => (404, st)
  | some cls =>
      if cls.teacher ≠ requester then (403, st)
      else if session_exists st.store class_id then (400, st)
      else
        (200, { st with store :=
          set_active_session st.store class_id ⟨new_sid, class_id, new_ts, []⟩ })

/-- One externally triggered operation on the shared state: an HTTP
    start-attendance request or an inbound WebSocket frame. -/
inductive Op where
  | start (requester class_id new_sid new_ts : String)
  | ws (role selfId : String) (inb : Inbound)

/-- State reached after one operation. -/
def applyOp (st : GState) : Op → GState
  | Op.start r c sid ts => (start_attendance st r c sid ts).2
  | Op.ws role selfId inb => (receive role selfId st inb).1

/-! ## JWT token extraction (attendance_system/middleware/jwt_auth.py) -/

/-- The parts of the ASGI scope `get_token_from_scope` reads: the query
    parameters as produced by `parse_qs` (each present key maps to a
    non-empty list of values) and the raw header pairs. -/
structure Scope where
  queryParams : List (String × List String)
  headers : List (String × String)

/-- First binding of a key in an association list (`parse_qs` result lookup). -/
def lookupFirst (l : List (String × List String)) (k : String) : Option (List String) :=
  match l with
  | [] => none
  | (k0, v0) :: rest => if k0 = k then some v0 else lookupFirst rest k

/-- `dict(scope["headers"])[k]`: Python dict construction keeps the last
    occurrence of a duplicated key. -/
def lookupLast (l : List (String × String)) (k : String) : Option String :=
  match l with
  | [] => none
  | (k0, v0) :: rest =>
      match lookupLast rest k with
      | some v => some v
      | none => if k0 = k then some v0 else none

/-- The Authorization-header branch: take the header, require the
    `Bearer ` shape, return `auth_header.split(" ")[1]` (which exists
    whenever the shape check passed). -/
def header_token (headers : List (String × String)) : Option String :=
  match lookupLast headers "authorization" with
  | none => none
  | some h =>
      if String.startsWith h "Bearer " then some ((h.splitOn " ").getD 1 "")
      else none

/-- `get_token_from_scope`: the `token` query parameter first (its first
    value), the Authorization header only as a fallback. -/
def get_token_from_scope (scope : Scope) : Option String :=
  match lookupFirst scope.queryParams "token" with
  | some vs => vs.head?
  | none => header_token scope.headers

/-! ## Derived notions used in the statements -/

/-- Number of entries of a dict carrying a given key. -/
def countKey (d : Dict) (k : String) : Nat :=
  (d.filter (fun e => e.1 == k)).length

/-- The rows the creation loop of `persist_attendance` inserts for a given
    entry list: one per entry whose key is a real user. -/
def entriesRecords (users : List String) (session_id class_id : String) (l : Dict) :
    List AttRecord :=
  (l.filter (fun e => users.contains e.1)).map (fun e => ⟨session_id, class_id, e.1, e.2⟩)

/-- The `unique_together = [["session_id", "student"]]` invariant of the
    attendance table: no two rows share the `(session_id, student)` pair. -/
def PairsNodup (l : List AttRecord) : Prop :=
  l.Pairwise (fun a b => ¬(a.session_id = b.session_id ∧ a.student = b.student))

/-- The operation is a DONE frame for class `c` from a teacher, finding a
    stored session whose persistence returns a summary — the only shape of
    operation that deletes a session from the store. -/
def SuccessfulDoneFor (op : Op) (st : GState) (c : String) : Prop :=
  ∃ selfId p sess db1 summ,
    op = Op.ws "TEACHER" selfId (Inbound.envelope (some "DONE") p) ∧
    p.classId = some c ∧ c.isEmpty = false ∧ st.store c = some sess ∧
    persist_attendance st.db sess = Except.ok (db1, some summ)

/-! ## Concrete states for witnesses and counterexamples -/

/-- A class with two enrolled students. -/
def clsA : Cls := ⟨"c1", "t1", ["s1", "s2"]⟩

/-- Database holding `clsA`, its teacher and students, and a spare user. -/
def dbA : DB := ⟨[clsA], ["t1", "s1", "s2", "u9"], []⟩

/-- The empty Redis store. -/
def emptyStore : Store := fun _ => none

/-- World before any session is started. -/
def stA : GState := ⟨emptyStore, dbA⟩

/-- The session `start_attendance` writes for `clsA`. -/
def sessA : Session := ⟨"sess1", "c1", "ts0", []⟩

/-- Store holding the single active session `sessA`. -/
def storeA : Store := fun c => if c = "c1" then some sessA else none

/-- World with an active session for `clsA`. -/
def stActive : GState := ⟨storeA, dbA⟩

/-- Session of `clsA` with one explicit present mark. -/
def sessMarked : Session := ⟨"sess1", "c1", "ts0", [("s1", "present")]⟩

/-- World holding `sessMarked` over the full database. -/
def stMarked : GState := ⟨fun c => if c = "c1" then some sessMarked else none, dbA⟩

/-- Database in which one attendance row of session `sess1` already exists,
    as after a finalize whose commit partially succeeded. -/
def dbDup : DB := ⟨[⟨"c1", "t1", ["s1"]⟩], ["s1"], [⟨"sess1", "c1", "s1", "present"⟩]⟩

/-- The session being finalized again over `dbDup`. -/
def sessDup : Session := ⟨"sess1", "c1", "ts", [("s1", "present")]⟩

/-- World for the duplicate-key retry. -/
def stDup : GState := ⟨fun c => if c = "c1" then some sessDup else none, dbDup⟩

/-- World whose database lacks the session's class (persistence returns
    `None`) while the session is still stored. -/
def stNoClass : GState := ⟨fun c => if c = "c1" then some sessDup else none, ⟨[], [], []⟩⟩

/-- A class with an empty roster. -/
def clsEmpty : Cls := ⟨"c1", "t1", []⟩

/-- Database with the empty-roster class and a real user `u9` who is not
    enrolled in it. -/
def dbU : DB := ⟨[clsEmpty], ["u9"], []⟩

/-- A session whose attendance mentions the non-enrolled user `u9`. -/
def sessU : Session := ⟨"sessX", "c1", "ts", [("u9", "present")]⟩

/-- A scope carrying both a `token` query parameter and an Authorization
    header. -/
def scopeBoth : Scope := ⟨[("token", ["query-tok"])], [("authorization", "Bearer header-tok")]⟩

/-- A scope carrying only the Authorization header. -/
def scopeHeaderOnly : Scope := ⟨[], [("authorization", "Bearer header-tok")]⟩

/-- Session of `clsA` with both students explicitly marked. -/
def sessPA : Session := ⟨"sess1", "c1", "ts0", [("s1", "present"), ("s2", "absent")]⟩

/-- World holding `sessPA`. -/
def stPA : GState := ⟨fun c => if c = "c1" then some sessPA else none, dbA⟩

/-- The DONE payload naming `clsA`. -/
def payloadC1 : Payload := ⟨some "c1", none, none⟩

/-- A teacher finalizing the session of `clsA` over the WebSocket. -/
def doneOp : Op := Op.ws "TEACHER" "t1" (Inbound.envelope (some "DONE") payloadC1)

/-- Session whose attendance names an id that is not a user at all. -/
def sessGhost : Session := ⟨"sess1", "c1", "ts0", [("ghost", "present")]⟩

end Attendance

namespace Attendance

/-! ## Dictionary lemmas -/

theorem dictGet_append_some {d1 d2 : Dict} {k v : String} (h : dictGet d1 k = some v) :
    dictGet (d1 ++ d2) k = some v := by
  induction d1 with
  | nil => simp [dictGet] at h
  | cons e rest ih =>
    obtain ⟨k0, v0⟩ := e
    simp only [List.cons_append, dictGet] at h ⊢
    by_cases hk : k0 = k
    · simpa [hk] using h
    · simp only [if_neg hk] at h ⊢
      exact ih h

theorem dictGet_append_none {d1 : Dict} (d2 : Dict) {k : String}
    (h : dictGet d1 k = none) : dictGet (d1 ++ d2) k = dictGet d2 k := by
  induction d1 with
  | nil => simp
  | cons e rest ih =>
    obtain ⟨k0, v0⟩ := e
    simp only [dictGet] at h
    by_cases hk : k0 = k
    · simp [hk] at h
    · simp only [List.cons_append, dictGet, if_neg hk] at *
      exact ih h

theorem dictGet_eq_none_iff {d : Dict} {k : String} :
    dictGet d k = none ↔ k ∉ dictKeys d := by
  induction d with
  | nil => simp [dictGet, dictKeys]
  | cons e rest ih =>
    obtain ⟨k0, v0⟩ := e
    by_cases hk : k0 = k
    · simp [dictGet, dictKeys, hk]
    · simp [dictGet, dictKeys, hk, ih, Ne.symm hk]

theorem mem_keys_iff_get {d : Dict} {k : String} :
    k ∈ dictKeys d ↔ ∃ v, dictGet d k = some v := by
  constructor
  · intro h
    cases hv : dictGet d k with
    | none => exact absurd (dictGet_eq_none_iff.mp hv) (by simp [h])
    | some v => exact ⟨v, rfl⟩
  · rintro ⟨v, hv⟩
    by_contra hmem
    rw [dictGet_eq_none_iff.mpr hmem] at hv
    cases hv

theorem dictGet_mem_of_nodup {d : Dict} {k v : String}
    (hnd : (dictKeys d).Nodup) (hmem : (k, v) ∈ d) : dictGet d k = some v := by
  induction d with
  | nil => cases hmem
  | cons e rest ih =>
    obtain ⟨k0, v0⟩ := e
    simp only [dictKeys, List.map_cons, List.nodup_cons] at hnd
    rcases List.mem_cons.mp hmem with heq | hrest
    · obtain ⟨hk, hv⟩ := Prod.mk.injEq .. ▸ heq
      simp_all [dictGet]
    · have hk0 : k0 ≠ k := by
        intro hc
        exact hnd.1 (hc ▸ (List.mem_map.mpr ⟨(k, v), hrest, rfl⟩))
      simp only [dictGet, if_neg hk0]
      exact ih hnd.2 hrest

theorem dictSet_idem (d : Dict) (k v : String) :
    dictSet (dictSet d k v) k v = dictSet d k v := by
  induction d with
  | nil => simp [dictSet]
  | cons e rest ih =>
    obtain ⟨k0, v0⟩ := e
    by_cases hk : k0 = k
    · simp [dictSet, hk]
    · simp [dictSet, hk, ih]

theorem countKey_cons (e : String × String) (rest : Dict) (k : String) :
    countKey (e :: rest) k = (if e.1 = k then 1 else 0) + countKey rest k := by
  simp only [countKey, List.filter_cons]
  by_cases h : e.1 = k
  · simp [h, Nat.add_comm]
  · simp [h]

theorem countKey_eq_zero_of_not_mem {d : Dict} {k : String}
    (h : k ∉ dictKeys d) : countKey d k = 0 := by
  induction d with
  | nil => rfl
  | cons e rest ih =>
    simp only [dictKeys, List.map_cons, List.mem_cons, not_or] at h
    rw [countKey_cons, if_neg (fun hc => h.1 hc.symm), ih (by
      intro hc
      exact h.2 hc)]

theorem countKey_eq_one_of_nodup {d : Dict} {k : String}
    (hnd : (dictKeys d).Nodup) (hmem : k ∈ dictKeys d) : countKey d k = 1 := by
  induction d with
  | nil => cases hmem
  | cons e rest ih =>
    simp only [dictKeys, List.map_cons, List.nodup_cons] at hnd
    simp only [dictKeys, List.map_cons, List.mem_cons] at hmem
    rw [countKey_cons]
    by_cases hk : e.1 = k
    · rw [if_pos hk, countKey_eq_zero_of_not_mem (fun hc => hnd.1 (hk ▸ hc))]
    · rcases hmem with hkk | hrest
      · exact absurd hkk.symm hk
      · rw [if_neg hk, Nat.zero_add]
        exact ih hnd.2 hrest

theorem countStatus_cons (e : String × String) (rest : Dict) (s : String) :
    countStatus (e :: rest) s = (if e.2 = s then 1 else 0) + countStatus rest s := by
  simp only [countStatus, List.filter_cons]
  by_cases h : e.2 = s
  · simp [h, Nat.add_comm]
  · simp [h]

theorem countStatus_partition {d : Dict}
    (h : ∀ e ∈ d, e.2 = "present" ∨ e.2 = "absent") :
    countStatus d "present" + countStatus d "absent" = d.length := by
  induction d with
  | nil => rfl
  | cons e rest ih =>
    have hrest := ih (fun x hx => h x (List.mem_cons_of_mem e hx))
    rw [countStatus_cons, countStatus_cons, List.length_cons]
    rcases h e (List.mem_cons_self e rest) with hp | ha
    · rw [if_pos hp, if_neg (by rw [hp]; decide)]
      omega
    · rw [if_neg (by rw [ha]; decide), if_pos ha]
      omega

end Attendance

namespace Attendance

/-! ## Lemmas about the absent-defaulting loop -/

theorem markAbsent_get_some {enr : List String} :
    ∀ {att : Dict} {k v : String}, dictGet att k = some v →
    dictGet (markAbsent att enr) k = some v := by
  induction enr with
  | nil => intro att k v h; simpa [markAbsent] using h
  | cons s rest ih =>
    intro att k v h
    simp only [markAbsent]
    by_cases hs : (dictGet att s).isSome
    · rw [if_pos hs]
      exact ih h
    · rw [if_neg hs]
      exact ih (dictGet_append_some h)

theorem markAbsent_get_absent {enr : List String} :
    ∀ {att : Dict} {k : String}, k ∈ enr → dictGet att k = none →
    dictGet (markAbsent att enr) k = some "absent" := by
  induction enr with
  | nil => intro att k h; cases h
  | cons s rest ih =>
    intro att k hmem hnone
    simp only [markAbsent]
    by_cases hks : k = s
    · subst hks
      rw [if_neg (by simp [hnone])]
      refine markAbsent_get_some ?_
      rw [dictGet_append_none _ hnone]
      simp [dictGet]
    · have hrest : k ∈ rest := by
        rcases List.mem_cons.mp hmem with h | h
        · exact absurd h hks
        · exact h
      by_cases hs : (dictGet att s).isSome
      · rw [if_pos hs]
        exact ih hrest hnone
      · rw [if_neg hs]
        refine ih hrest ?_
        rw [dictGet_append_none _ hnone]
        simp only [dictGet, if_neg (show ¬s = k from fun hc => hks hc.symm)]

theorem markAbsent_mem_keys {enr : List String} {att : Dict} {k : String}
    (h : k ∈ enr) : k ∈ dictKeys (markAbsent att enr) := by
  cases hv : dictGet att k with
  | none => exact mem_keys_iff_get.mpr ⟨"absent", markAbsent_get_absent h hv⟩
  | some v => exact mem_keys_iff_get.mpr ⟨v, markAbsent_get_some hv⟩

theorem markAbsent_keys_nodup {enr : List String} :
    ∀ {att : Dict}, (dictKeys att).Nodup → (dictKeys (markAbsent att enr)).Nodup := by
  induction enr with
  | nil => intro att h; simpa [markAbsent] using h
  | cons s rest ih =>
    intro att h
    simp only [markAbsent]
    by_cases hs : (dictGet att s).isSome
    · rw [if_pos hs]
      exact ih h
    · rw [if_neg hs]
      refine ih ?_
      have hsn : s ∉ dictKeys att := by
        refine dictGet_eq_none_iff.mp ?_
        cases hv : dictGet att s with
        | none => rfl
        | some v => exact absurd (by simp [hv]) hs
      simp only [dictKeys, List.map_append]
      rw [List.nodup_append]
      refine ⟨h, by simp, ?_⟩
      intro a ha hb
      simp only [List.map_cons, List.map_nil, List.mem_singleton] at hb
      exact hsn (hb ▸ ha)

/-! ## Lemmas about the record-creation loop -/

theorem attCreate_ok {db db1 : DB} {r : AttRecord} (h : attCreate db r = Except.ok db1) :
    db1 = { db with records := db.records ++ [r] } ∧
    ∀ r0 ∈ db.records, ¬(r0.session_id = r.session_id ∧ r0.student = r.student) := by
  unfold attCreate at h
  split at h
  · cases h
  · next hany =>
    refine ⟨by cases h; rfl, ?_⟩
    intro r0 hr0 ⟨h1, h2⟩
    exact hany (List.any_eq_true.mpr ⟨r0, hr0, by simp [h1, h2]⟩)

theorem createRecords_ok {l : Dict} :
    ∀ {db db1 : DB} {session_id class_id : String},
    createRecords db session_id class_id l = Except.ok db1 →
    db1 = { db with records := db.records ++ entriesRecords db.users session_id class_id l } := by
  induction l with
  | nil =>
    intro db db1 s c h
    cases h
    simp [entriesRecords]
  | cons e rest ih =>
    intro db db1 s c h
    obtain ⟨sid, status⟩ := e
    simp only [createRecords] at h
    by_cases hu : userExists db sid
    · rw [if_pos hu] at h
      cases hc : attCreate db ⟨s, c, sid, status⟩ with
      | error m => rw [hc] at h; cases h
      | ok dbm =>
        rw [hc] at h
        obtain ⟨hdbm, -⟩ := attCreate_ok hc
        have := ih h
        subst hdbm
        simp only [entriesRecords, List.filter_cons] at this ⊢
        simp only [show (userExists db sid : Bool) = db.users.contains sid from rfl] at hu
        simp only [hu, if_pos] at this ⊢
        simp only [this]
        simp [List.append_assoc]
    · rw [if_neg hu] at h
      have := ih h
      simp only [entriesRecords, List.filter_cons] at this ⊢
      simp only [show (userExists db sid : Bool) = db.users.contains sid from rfl] at hu
      simp only [Bool.not_eq_true] at hu
      simp only [hu] at this ⊢
      simpa using this

end Attendance

namespace Attendance

theorem entriesRecords_mem {users : List String} {s c : String} {l : Dict} {r : AttRecord}
    (h : r ∈ entriesRecords users s c l) :
    r.session_id = s ∧ r.class_id = c ∧ (r.student, r.status) ∈ l := by
  unfold entriesRecords at h
  obtain ⟨e, he, rfl⟩ := List.mem_map.mp h
  exact ⟨rfl, rfl, by simpa using List.mem_of_mem_filter he⟩

theorem entriesRecords_count_student {users : List String} {s c k : String} (l : Dict) :
    ((entriesRecords users s c l).filter (fun r => r.student == k)).length =
    ((l.filter (fun e => users.contains e.1)).filter (fun e => e.1 == k)).length := by
  unfold entriesRecords
  induction l.filter (fun e => users.contains e.1) with
  | nil => rfl
  | cons e rest ih =>
    simp only [List.map_cons, List.filter_cons]
    by_cases hk : e.1 = k
    · simp only [show ((⟨s, c, e.1, e.2⟩ : AttRecord).student == k) = true by simpa using hk,
        show (e.1 == k) = true by simpa using hk, if_pos]
      simpa using ih
    · simp only [show ((⟨s, c, e.1, e.2⟩ : AttRecord).student == k) = false by simpa using hk,
        show (e.1 == k) = false by simpa using hk]
      simpa using ih

theorem filter_contains_key {users : List String} {k : String} {l : Dict}
    (h : users.contains k = true) :
    ((l.filter (fun e => users.contains e.1)).filter (fun e => e.1 == k)).length =
    countKey l k := by
  induction l with
  | nil => rfl
  | cons e rest ih =>
    rw [countKey_cons]
    by_cases hk : e.1 = k
    · have h1 : (users.contains e.1) = true := by rw [hk]; exact h
      rw [List.filter_cons, if_pos (by simpa using h1), List.filter_cons,
        if_pos (by simpa using hk), List.length_cons, if_pos hk, ih]
      omega
    · by_cases hc : users.contains e.1
      · rw [List.filter_cons, if_pos (by simpa using hc), List.filter_cons,
          if_neg (by simpa using hk), if_neg hk, ih]
        omega
      · rw [List.filter_cons, if_neg (by simpa using hc), if_neg hk, ih]
        omega

theorem pairsNodup_append_single {recs : List AttRecord} {r : AttRecord}
    (h : PairsNodup recs)
    (hfresh : ∀ r0 ∈ recs, ¬(r0.session_id = r.session_id ∧ r0.student = r.student)) :
    PairsNodup (recs ++ [r]) := by
  unfold PairsNodup at *
  rw [List.pairwise_append]
  refine ⟨h, by simp, ?_⟩
  intro a ha b hb
  simp only [List.mem_singleton] at hb
  subst hb
  exact hfresh a ha

theorem createRecords_ok_pairsNodup {l : Dict} :
    ∀ {db db1 : DB} {s c : String}, PairsNodup db.records →
    createRecords db s c l = Except.ok db1 → PairsNodup db1.records := by
  induction l with
  | nil =>
    intro db db1 s c h hok
    cases hok
    exact h
  | cons e rest ih =>
    intro db db1 s c h hok
    obtain ⟨sid, status⟩ := e
    simp only [createRecords] at hok
    by_cases hu : userExists db sid
    · rw [if_pos hu] at hok
      cases hc : attCreate db ⟨s, c, sid, status⟩ with
      | error m => rw [hc] at hok; cases hok
      | ok dbm =>
        rw [hc] at hok
        obtain ⟨hdbm, hfresh⟩ := attCreate_ok hc
        refine ih ?_ hok
        subst hdbm
        exact pairsNodup_append_single h hfresh
    · rw [if_neg hu] at hok
      exact ih h hok

theorem createRecords_error_pairsNodup {l : Dict} :
    ∀ {db db1 : DB} {s c m : String}, PairsNodup db.records →
    createRecords db s c l = Except.error (db1, m) → PairsNodup db1.records := by
  induction l with
  | nil =>
    intro db db1 s c m h herr
    cases herr
  | cons e rest ih =>
    intro db db1 s c m h herr
    obtain ⟨sid, status⟩ := e
    simp only [createRecords] at herr
    by_cases hu : userExists db sid
    · rw [if_pos hu] at herr
      cases hc : attCreate db ⟨s, c, sid, status⟩ with
      | error m0 =>
        rw [hc] at herr
        cases herr
        exact h
      | ok dbm =>
        rw [hc] at herr
        obtain ⟨hdbm, hfresh⟩ := attCreate_ok hc
        refine ih ?_ herr
        subst hdbm
        exact pairsNodup_append_single h hfresh
    · rw [if_neg hu] at herr
      exact ih h herr

theorem createRecords_not_student {l : Dict} :
    ∀ {db : DB} {s c sid : String}, userExists db sid = false →
    (∀ r ∈ db.records, r.student ≠ sid) →
    (∀ {db1 : DB}, createRecords db s c l = Except.ok db1 →
      ∀ r ∈ db1.records, r.student ≠ sid) ∧
    (∀ {db1 : DB} {m : String}, createRecords db s c l = Except.error (db1, m) →
      ∀ r ∈ db1.records, r.student ≠ sid) := by
  induction l with
  | nil =>
    intro db s c sid hu hclean
    constructor
    · intro db1 hok
      cases hok
      exact hclean
    · intro db1 m herr
      cases herr
  | cons e rest ih =>
    intro db s c sid hu hclean
    obtain ⟨k, status⟩ := e
    constructor
    · intro db1 hok
      simp only [createRecords] at hok
      by_cases hk : userExists db k
      · rw [if_pos hk] at hok
        cases hc : attCreate db ⟨s, c, k, status⟩ with
        | error m => rw [hc] at hok; cases hok
        | ok dbm =>
          rw [hc] at hok
          obtain ⟨hdbm, -⟩ := attCreate_ok hc
          have hne : k ≠ sid := by
            intro hksid
            rw [hksid] at hk
            rw [hu] at hk
            cases hk
          have hclean1 : ∀ r ∈ dbm.records, r.student ≠ sid := by
            subst hdbm
            intro r hr
            rcases List.mem_append.mp hr with hold | hnew
            · exact hclean r hold
            · simp only [List.mem_singleton] at hnew
              subst hnew
              exact hne
          have hu1 : userExists dbm sid = false := by
            subst hdbm
            exact hu
          exact (ih hu1 hclean1).1 hok
      · rw [if_neg hk] at hok
        exact (ih hu hclean).1 hok
    · intro db1 m herr
      simp only [createRecords] at herr
      by_cases hk : userExists db k
      · rw [if_pos hk] at herr
        cases hc : attCreate db ⟨s, c, k, status⟩ with
        | error m0 =>
          rw [hc] at herr
          cases herr
          exact hclean
        | ok dbm =>
          rw [hc] at herr
          obtain ⟨hdbm, -⟩ := attCreate_ok hc
          have hne : k ≠ sid := by
            intro hksid
            rw [hksid] at hk
            rw [hu] at hk
            cases hk
          have hclean1 : ∀ r ∈ dbm.records, r.student ≠ sid := by
            subst hdbm
            intro r hr
            rcases List.mem_append.mp hr with hold | hnew
            · exact hclean r hold
            · simp only [List.mem_singleton] at hnew
              subst hnew
              exact hne
          have hu1 : userExists dbm sid = false := by
            subst hdbm
            exact hu
          exact (ih hu1 hclean1).2 herr
      · rw [if_neg hk] at herr
        exact (ih hu hclean).2 herr

theorem createRecords_skip {l1 : Dict} :
    ∀ {db : DB} {s c sid v : String} (l2 : Dict), userExists db sid = false →
    createRecords db s c (l1 ++ (sid, v) :: l2) = createRecords db s c (l1 ++ l2) := by
  induction l1 with
  | nil =>
    intro db s c sid v l2 hu
    simp only [List.nil_append, createRecords, hu]
    simp
  | cons e rest ih =>
    intro db s c sid v l2 hu
    obtain ⟨k, status⟩ := e
    simp only [List.cons_append, createRecords]
    by_cases hk : userExists db k
    · rw [if_pos hk, if_pos hk]
      cases hc : attCreate db ⟨s, c, k, status⟩ with
      | error m => rfl
      | ok dbm =>
        obtain ⟨hdbm, -⟩ := attCreate_ok hc
        have hu1 : userExists dbm sid = false := by
          subst hdbm
          exact hu
        exact ih l2 hu1
    · rw [if_neg hk, if_neg hk]
      exact ih l2 hu

end Attendance

namespace Attendance

/-! ## Store and handler lemmas -/

theorem truthy_iff {o : Option String} :
    truthy o = true ↔ ∃ s, o = some s ∧ s.isEmpty = false := by
  cases o with
  | none => simp [truthy]
  | some s => simp [truthy]

theorem set_active_session_ne_none {st : Store} {c c' : String} {s : Session}
    (h : st c' ≠ none) : set_active_session st c s c' ≠ none := by
  unfold set_active_session
  by_cases hc : c' = c
  · simp [hc]
  · simpa [hc] using h

theorem update_attendance_ne_none {st : Store} {c sid v c' : String}
    (h : st c' ≠ none) : update_attendance st c sid v c' ≠ none := by
  unfold update_attendance
  cases st c with
  | none => exact h
  | some sess => exact set_active_session_ne_none h

theorem handle_today_summary_state (role : String) (st : GState) (p : Payload) :
    (handle_today_summary role st p).1 = st := by
  unfold handle_today_summary
  split
  · rfl
  · split
    · rfl
    · split <;> rfl

theorem handle_my_attendance_state (role selfId : String) (st : GState) (p : Payload) :
    (handle_my_attendance role selfId st p).1 = st := by
  unfold handle_my_attendance
  split
  · rfl
  · split
    · rfl
    · split <;> rfl

theorem handle_attendance_marked_store_ne_none {role : String} {st : GState} {p : Payload}
    {c' : String} (h : st.store c' ≠ none) :
    (handle_attendance_marked role st p).1.store c' ≠ none := by
  unfold handle_attendance_marked
  split
  · exact h
  · split
    · exact h
    · split
      · exact h
      · exact update_attendance_ne_none h

theorem handle_done_cases (role : String) (st : GState) (p : Payload) :
    (∃ st1 m, handle_done role st p = Except.ok (st1, send_error m) ∧ st1.store = st.store) ∨
    (∃ db1 m, handle_done role st p = Except.error (db1, m)) ∨
    (∃ c sess db1 summ, p.classId = some c ∧ c.isEmpty = false ∧ role = "TEACHER" ∧
      st.store c = some sess ∧
      persist_attendance st.db sess = Except.ok (db1, some summ) ∧
      handle_done role st p = Except.ok
        (⟨clear_active_session st.store c, db1⟩,
         [Effect.broadcast (Frame.done c "Attendance persisted"
           summ.present summ.absent summ.total)])) := by
  unfold handle_done
  split
  · exact Or.inl ⟨st, _, rfl, rfl⟩
  · split
    · exact Or.inl ⟨st, _, rfl, rfl⟩
    · next hrole htr =>
      have htr1 : truthy p.classId = true := by
        cases hv : truthy p.classId with
        | false => exact absurd (by rw [hv]; rfl) htr
        | true => rfl
      obtain ⟨c0, hc0, hne0⟩ := truthy_iff.mp htr1
      split
      · exact Or.inl ⟨st, _, rfl, rfl⟩
      · next sess hget =>
        split
        · next e heq =>
          exact Or.inr (Or.inl ⟨e.1, e.2, rfl⟩)
        · exact Or.inl ⟨_, _, rfl, rfl⟩
        · next db1 summ heq =>
          refine Or.inr (Or.inr ⟨c0, sess, db1, summ, hc0, hne0, not_not.mp hrole, ?_, ?_, ?_⟩)
          · rw [hc0] at hget
            exact hget
          · exact heq
          · rw [hc0]
            rfl

theorem receive_malformed_eq (role selfId : String) (st : GState) :
    receive role selfId st Inbound.malformed = (st, send_error "Invalid JSON format") := rfl

theorem receive_envelope_eq (role selfId : String) (st : GState) (ev : Option String)
    (p : Payload) :
    receive role selfId st (Inbound.envelope ev p) =
      if ev = some "ATTENDANCE_MARKED" then handle_attendance_marked role st p
      else if ev = some "TODAY_SUMMARY" then handle_today_summary role st p
      else if ev = some "MY_ATTENDANCE" then handle_my_attendance role selfId st p
      else if ev = some "DONE" then
        match handle_done role st p with
        | Except.ok r => r
        | Except.error (db1, m) => ({ st with db := db1 }, send_error m)
      else (st, send_error ("Unknown event: " ++ eventText ev)) := rfl

theorem receive_store_removed {role selfId : String} {st : GState} {inb : Inbound} {c : String}
    (hsome : st.store c ≠ none) (hrem : (receive role selfId st inb).1.store c = none) :
    ∃ p sess db1 summ, inb = Inbound.envelope (some "DONE") p ∧ role = "TEACHER" ∧
      p.classId = some c ∧ c.isEmpty = false ∧ st.store c = some sess ∧
      persist_attendance st.db sess = Except.ok (db1, some summ) := by
  cases inb with
  | malformed => exact absurd hrem hsome
  | envelope ev p =>
    rw [receive_envelope_eq] at hrem
    by_cases h1 : ev = some "ATTENDANCE_MARKED"
    · rw [if_pos h1] at hrem
      exact absurd hrem (handle_attendance_marked_store_ne_none hsome)
    rw [if_neg h1] at hrem
    by_cases h2 : ev = some "TODAY_SUMMARY"
    · rw [if_pos h2, handle_today_summary_state] at hrem
      exact absurd hrem hsome
    rw [if_neg h2] at hrem
    by_cases h3 : ev = some "MY_ATTENDANCE"
    · rw [if_pos h3, handle_my_attendance_state] at hrem
      exact absurd hrem hsome
    rw [if_neg h3] at hrem
    by_cases h4 : ev = some "DONE"
    · rw [if_pos h4] at hrem
      rcases handle_done_cases role st p with
        ⟨st1, m, heq, hstore⟩ | ⟨db1, m, heq⟩ |
        ⟨c0, sess, db1, summ, hc0, hne0, hrole, hget, hp, heq⟩
      · rw [heq] at hrem
        simp only at hrem
        rw [hstore] at hrem
        exact absurd hrem hsome
      · rw [heq] at hrem
        simp only at hrem
        exact absurd hrem hsome
      · rw [heq] at hrem
        simp only at hrem
        by_cases hcc : c = c0
        · subst hcc
          exact ⟨p, sess, db1, summ, by rw [h4], hrole, hc0, hne0, hget, hp⟩
        · rw [show clear_active_session st.store c0 c = st.store c from by
            unfold clear_active_session; rw [if_neg hcc]] at hrem
          exact absurd hrem hsome
    · rw [if_neg h4] at hrem
      exact absurd hrem hsome

theorem start_attendance_store_ne_none {st : GState} {r c0 sid ts c' : String}
    (h : st.store c' ≠ none) :
    (start_attendance st r c0 sid ts).2.store c' ≠ none := by
  unfold start_attendance
  split
  · exact h
  · split
    · exact h
    · split
      · exact h
      · exact set_active_session_ne_none h

theorem start_attendance_cases (st : GState) (r c0 sid ts : String) :
    start_attendance st r c0 sid ts = (404, st) ∨
    start_attendance st r c0 sid ts = (403, st) ∨
    (start_attendance st r c0 sid ts = (400, st) ∧ st.store c0 ≠ none) ∨
    (start_attendance st r c0 sid ts =
      (200, { st with store := set_active_session st.store c0 ⟨sid, c0, ts, []⟩ }) ∧
      st.store c0 = none) := by
  unfold start_attendance
  split
  · exact Or.inl rfl
  · split
    · exact Or.inr (Or.inl rfl)
    · split
      · next hex =>
        refine Or.inr (Or.inr (Or.inl ⟨rfl, ?_⟩))
        intro hnone
        rw [show session_exists st.store c0 = (st.store c0).isSome from rfl, hnone] at hex
        cases hex
      · next hex =>
        refine Or.inr (Or.inr (Or.inr ⟨rfl, ?_⟩))
        cases hsc : st.store c0 with
        | none => rfl
        | some s =>
          exact absurd (show session_exists st.store c0 = true from by
            rw [show session_exists st.store c0 = (st.store c0).isSome from rfl, hsc]
            rfl) hex

theorem start_attendance_conflict {st : GState} {r c0 sid ts : String}
    (h : st.store c0 ≠ none) :
    (start_attendance st r c0 sid ts).1 ≠ 200 ∧ (start_attendance st r c0 sid ts).2 = st := by
  rcases start_attendance_cases st r c0 sid ts with heq | heq | ⟨heq, -⟩ | ⟨-, hnone⟩
  · rw [heq]
    exact ⟨by simp, rfl⟩
  · rw [heq]
    exact ⟨by simp, rfl⟩
  · rw [heq]
    exact ⟨by simp, rfl⟩
  · exact absurd hnone h

theorem start_attendance_success_store {st : GState} {r c0 sid ts : String}
    (h : (start_attendance st r c0 sid ts).1 = 200) :
    (start_attendance st r c0 sid ts).2.store c0 ≠ none := by
  rcases start_attendance_cases st r c0 sid ts with heq | heq | ⟨heq, -⟩ | ⟨heq, -⟩
  · rw [heq] at h
    simp at h
  · rw [heq] at h
    simp at h
  · rw [heq] at h
    simp at h
  · rw [heq]
    simp [set_active_session]

end Attendance

namespace Attendance

/-! ## No handler branch closes the socket -/

theorem close_not_mem_send_error (m : String) : Effect.close ∉ send_error m := by
  simp [send_error]

theorem close_not_mem_marked (role : String) (st : GState) (p : Payload) :
    Effect.close ∉ (handle_attendance_marked role st p).2 := by
  unfold handle_attendance_marked
  split
  · exact close_not_mem_send_error _
  · split
    · exact close_not_mem_send_error _
    · split
      · exact close_not_mem_send_error _
      · simp

theorem close_not_mem_summary (role : String) (st : GState) (p : Payload) :
    Effect.close ∉ (handle_today_summary role st p).2 := by
  unfold handle_today_summary
  split
  · exact close_not_mem_send_error _
  · split
    · exact close_not_mem_send_error _
    · split
      · exact close_not_mem_send_error _
      · simp

theorem close_not_mem_my (role selfId : String) (st : GState) (p : Payload) :
    Effect.close ∉ (handle_my_attendance role selfId st p).2 := by
  unfold handle_my_attendance
  split
  · exact close_not_mem_send_error _
  · split
    · exact close_not_mem_send_error _
    · split
      · simp
      · simp

theorem close_not_mem_done {role : String} {st : GState} {p : Payload} {st1 : GState}
    {effs : List Effect} (h : handle_done role st p = Except.ok (st1, effs)) :
    Effect.close ∉ effs := by
  unfold handle_done at h
  split at h
  · cases h
    exact close_not_mem_send_error _
  · split at h
    · cases h
      exact close_not_mem_send_error _
    · split at h
      · cases h
        exact close_not_mem_send_error _
      · split at h
        · cases h
        · cases h
          exact close_not_mem_send_error _
        · cases h
          simp

theorem receive_no_close (role selfId : String) (st : GState) (inb : Inbound) :
    Effect.close ∉ (receive role selfId st inb).2 := by
  cases inb with
  | malformed =>
    rw [receive_malformed_eq]
    exact close_not_mem_send_error _
  | envelope ev p =>
    rw [receive_envelope_eq]
    by_cases h1 : ev = some "ATTENDANCE_MARKED"
    · rw [if_pos h1]
      exact close_not_mem_marked role st p
    rw [if_neg h1]
    by_cases h2 : ev = some "TODAY_SUMMARY"
    · rw [if_pos h2]
      exact close_not_mem_summary role st p
    rw [if_neg h2]
    by_cases h3 : ev = some "MY_ATTENDANCE"
    · rw [if_pos h3]
      exact close_not_mem_my role selfId st p
    rw [if_neg h3]
    by_cases h4 : ev = some "DONE"
    · rw [if_pos h4]
      cases hd : handle_done role st p with
      | ok r =>
        obtain ⟨st1, effs⟩ := r
        exact close_not_mem_done hd
      | error e =>
        obtain ⟨db1, m⟩ := e
        exact close_not_mem_send_error _
    · rw [if_neg h4]
      exact close_not_mem_send_error _

end Attendance

namespace Attendance

/-! ## Claim theorems -/

/-- C7 counterexample: with an active session for the class, the owning
    teacher's start request is answered with HTTP 400, not with Conflict 409
    (the store is still left untouched). -/
theorem start_conflict_http_cex :
    (start_attendance stActive "t1" "c1" "n1" "ts1").1 = 400 ∧ (400 : Nat) ≠ 409 ∧
    (start_attendance stActive "t1" "c1" "n1" "ts1").2 = stActive :=
  ⟨rfl, by decide, rfl⟩

/-- C7 (amended): the start-attendance endpoint, called by the owning teacher
    for an existing class that already has an active session, responds with
    HTTP 400 Bad Request (not 409 Conflict) and neither creates nor
    overwrites any session: the state is returned unchanged. -/
theorem start_conflict_returns_400 (st : GState) (r c sid ts : String) (cls : Cls)
    (hcls : getClass st.db c = some cls) (ht : cls.teacher = r)
    (hex : st.store c ≠ none) :
    start_attendance st r c sid ts = (400, st) := by
  unfold start_attendance
  split
  · next hn =>
    rw [hcls] at hn
    cases hn
  · next cls2 hs =>
    rw [hcls] at hs
    injection hs with hs2
    subst hs2
    rw [if_neg (not_not_intro ht),
      if_pos (show session_exists st.store c = true from Option.ne_none_iff_isSome.mp hex)]

/-- C7 witness: the amended statement evaluated for `clsA` with its session
    active. -/
theorem start_conflict_returns_400_witness :
    getClass stActive.db "c1" = some clsA ∧ clsA.teacher = "t1" ∧
    stActive.store "c1" ≠ none ∧
    start_attendance stActive "t1" "c1" "n1" "ts1" = (400, stActive) :=
  ⟨rfl, rfl, by decide,
    start_conflict_returns_400 stActive "t1" "c1" "n1" "ts1" clsA rfl rfl (by decide)⟩

/-- C8: handling an inbound frame never closes the socket; malformed JSON is
    answered with the generic invalid-format ERROR frame, an unrecognized
    event with an ERROR frame naming it, and an exception escaping the DONE
    handler with an ERROR frame carrying its message — in each case as the
    only effect, with no close. -/
theorem receive_errors_never_close :
    (∀ (role selfId : String) (st : GState) (inb : Inbound),
      Effect.close ∉ (receive role selfId st inb).2) ∧
    (∀ (role selfId : String) (st : GState),
      (receive role selfId st Inbound.malformed).2 =
        [Effect.sendSelf (Frame.error "Invalid JSON format")]) ∧
    (∀ (role selfId : String) (st : GState) (ev : Option String) (p : Payload),
      ev ≠ some "ATTENDANCE_MARKED" → ev ≠ some "TODAY_SUMMARY" →
      ev ≠ some "MY_ATTENDANCE" → ev ≠ some "DONE" →
      (receive role selfId st (Inbound.envelope ev p)).2 =
        [Effect.sendSelf (Frame.error ("Unknown event: " ++ eventText ev))]) ∧
    (∀ (role selfId : String) (st : GState) (p : Payload) (db1 : DB) (m : String),
      handle_done role st p = Except.error (db1, m) →
      (receive role selfId st (Inbound.envelope (some "DONE") p)).2 =
        [Effect.sendSelf (Frame.error m)]) := by
  refine ⟨receive_no_close, fun _ _ _ => rfl, ?_, ?_⟩
  · intro role selfId st ev p h1 h2 h3 h4
    rw [receive_envelope_eq, if_neg h1, if_neg h2, if_neg h3, if_neg h4]
    rfl
  · intro role selfId st p db1 m hd
    rw [receive_envelope_eq, if_neg (by decide), if_neg (by decide), if_neg (by decide),
      if_pos rfl, hd]
    rfl

/-- C8 witness: the four parts evaluated on concrete frames, including a
    DONE whose persistence raises an IntegrityError. -/
theorem receive_errors_never_close_witness :
    Effect.close ∉ (receive "TEACHER" "t1" stA Inbound.malformed).2 ∧
    (receive "TEACHER" "t1" stA Inbound.malformed).2 =
      [Effect.sendSelf (Frame.error "Invalid JSON format")] ∧
    (receive "TEACHER" "t1" stA (Inbound.envelope (some "PING") ⟨none, none, none⟩)).2 =
      [Effect.sendSelf (Frame.error ("Unknown event: " ++ eventText (some "PING")))] ∧
    handle_done "TEACHER" stDup ⟨some "c1", none, none⟩ =
      Except.error (dbDup, "IntegrityError: duplicate (session_id, student)") ∧
    (receive "TEACHER" "t1" stDup (Inbound.envelope (some "DONE") ⟨some "c1", none, none⟩)).2 =
      [Effect.sendSelf (Frame.error "IntegrityError: duplicate (session_id, student)")] :=
  ⟨receive_errors_never_close.1 "TEACHER" "t1" stA Inbound.malformed,
   receive_errors_never_close.2.1 "TEACHER" "t1" stA,
   receive_errors_never_close.2.2.1 "TEACHER" "t1" stA (some "PING") ⟨none, none, none⟩
     (by decide) (by decide) (by decide) (by decide),
   rfl,
   receive_errors_never_close.2.2.2 "TEACHER" "t1" stDup ⟨some "c1", none, none⟩
     dbDup "IntegrityError: duplicate (session_id, student)" rfl⟩

/-- C9: for a class with an active session, applying the Redis mark update
    twice with the same student and the same status yields the same store as
    applying it once. -/
theorem mark_idempotent (store : Store) (c sid status : String)
    (h : ∃ sess, store c = some sess) :
    update_attendance (update_attendance store c sid status) c sid status =
      update_attendance store c sid status := by
  obtain ⟨sess, hs⟩ := h
  have h1 : update_attendance store c sid status =
      set_active_session store c
        { sess with attendance := dictSet sess.attendance sid status } := by
    unfold update_attendance
    rw [hs]
  rw [h1]
  unfold update_attendance
  rw [show set_active_session store c
      { sess with attendance := dictSet sess.attendance sid status } c =
      some { sess with attendance := dictSet sess.attendance sid status } from by
    unfold set_active_session
    simp]
  funext c'
  unfold set_active_session
  by_cases hc : c' = c
  · simp [hc, dictSet_idem]
  · simp [hc]

/-- C9 witness: marking `s1` present twice in the active session of `clsA`. -/
theorem mark_idempotent_witness :
    (∃ sess, storeA "c1" = some sess) ∧
    update_attendance (update_attendance storeA "c1" "s1" "present") "c1" "s1" "present" =
      update_attendance storeA "c1" "s1" "present" :=
  ⟨⟨sessA, rfl⟩, mark_idempotent storeA "c1" "s1" "present" ⟨sessA, rfl⟩⟩

/-- C10: when the scope has a `token` query parameter its first value is the
    token used, whatever the headers say; the Authorization header is
    consulted only when no `token` query parameter exists. -/
theorem token_query_precedence :
    (∀ (scope : Scope) (qt : String) (rest : List String),
      lookupFirst scope.queryParams "token" = some (qt :: rest) →
      get_token_from_scope scope = some qt) ∧
    (∀ scope : Scope, lookupFirst scope.queryParams "token" = none →
      get_token_from_scope scope = header_token scope.headers) := by
  constructor
  · intro scope qt rest h
    unfold get_token_from_scope
    rw [h]
    rfl
  · intro scope h
    unfold get_token_from_scope
    rw [h]

/-- C10 witness: a scope carrying both sources authenticates with the query
    token; one with no query token falls back to the header. -/
theorem token_query_precedence_witness :
    lookupFirst scopeBoth.queryParams "token" = some ["query-tok"] ∧
    get_token_from_scope scopeBoth = some "query-tok" ∧
    lookupFirst scopeHeaderOnly.queryParams "token" = none ∧
    get_token_from_scope scopeHeaderOnly = header_token scopeHeaderOnly.headers :=
  ⟨rfl, token_query_precedence.1 scopeBoth "query-tok" [] rfl, rfl,
   token_query_precedence.2 scopeHeaderOnly rfl⟩

end Attendance

namespace Attendance

/-- C1: at most one active session per class — starting while a session for
    the class exists fails (non-200) and returns the state unchanged; the
    only operation that removes a stored session is a successful DONE
    finalization for that class; hence a second start without an intervening
    finalize always fails. -/
theorem single_active_session :
    (∀ (st : GState) (r c sid ts : String), st.store c ≠ none →
      (start_attendance st r c sid ts).1 ≠ 200 ∧
      (start_attendance st r c sid ts).2 = st) ∧
    (∀ (st : GState) (op : Op) (c : String), st.store c ≠ none →
      (applyOp st op).store c = none → SuccessfulDoneFor op st c) ∧
    (∀ (st : GState) (r c sid ts r2 sid2 ts2 : String),
      (start_attendance st r c sid ts).1 = 200 →
      (start_attendance (start_attendance st r c sid ts).2 r2 c sid2 ts2).1 ≠ 200) := by
  refine ⟨fun st r c sid ts h => start_attendance_conflict h, ?_, ?_⟩
  · intro st op c hsome hrem
    cases op with
    | start r c0 sid ts =>
      exact absurd hrem (start_attendance_store_ne_none hsome)
    | ws role selfId inb =>
      obtain ⟨p, sess, db1, summ, hinb, hrole, hc, hne, hget, hp⟩ :=
        receive_store_removed hsome hrem
      exact ⟨selfId, p, sess, db1, summ, by rw [hinb, hrole], hc, hne, hget, hp⟩
  · intro st r c sid ts r2 sid2 ts2 h
    exact (start_attendance_conflict (start_attendance_success_store h)).1

/-- C1 witness: the three parts evaluated on the concrete class `clsA`: a
    second start against the active session fails with the store unchanged, a
    teacher DONE is the shape that removes the stored session, and
    start-start without finalize fails the second time. -/
theorem single_active_session_witness :
    (stActive.store "c1" ≠ none ∧
      (start_attendance stActive "t1" "c1" "n1" "ts1").1 ≠ 200 ∧
      (start_attendance stActive "t1" "c1" "n1" "ts1").2 = stActive) ∧
    (stMarked.store "c1" ≠ none ∧ (applyOp stMarked doneOp).store "c1" = none ∧
      SuccessfulDoneFor doneOp stMarked "c1") ∧
    ((start_attendance stA "t1" "c1" "n1" "ts1").1 = 200 ∧
      (start_attendance (start_attendance stA "t1" "c1" "n1" "ts1").2
        "t1" "c1" "n2" "ts2").1 ≠ 200) := by
  refine ⟨⟨by decide, single_active_session.1 stActive "t1" "c1" "n1" "ts1" (by decide)⟩,
    ⟨by decide, by decide,
      single_active_session.2.1 stMarked doneOp "c1" (by decide) (by decide)⟩,
    ⟨rfl, single_active_session.2.2 stA "t1" "c1" "n1" "ts1" "t1" "n2" "ts2" rfl⟩⟩

/-- C2: when persistence does not return a summary — whatever the reason —
    handling DONE leaves the whole session store exactly as it was (so the
    session of the class is not deleted, not even partially) and an ERROR
    frame is reported. -/
theorem failed_persist_preserves_session (role selfId : String) (st : GState) (p : Payload)
    (c : String) (sess : Session) (hc : p.classId = some c) (hs : st.store c = some sess)
    (hfail : ∀ (db1 : DB) (summ : Summary),
      persist_attendance st.db sess ≠ Except.ok (db1, some summ)) :
    (receive role selfId st (Inbound.envelope (some "DONE") p)).1.store = st.store ∧
    ∃ m, Effect.sendSelf (Frame.error m) ∈
      (receive role selfId st (Inbound.envelope (some "DONE") p)).2 := by
  rw [receive_envelope_eq, if_neg (by decide), if_neg (by decide), if_neg (by decide),
    if_pos rfl]
  rcases handle_done_cases role st p with ⟨st1, m, heq, hstore⟩ | ⟨db1, m, heq⟩ |
    ⟨c0, sess0, db1, summ, hc0, hne0, hrole, hget0, hp0, heq⟩
  · rw [heq]
    exact ⟨hstore, m, by simp [send_error]⟩
  · rw [heq]
    exact ⟨rfl, m, by simp [send_error]⟩
  · rw [hc] at hc0
    injection hc0 with hcc
    subst hcc
    rw [hs] at hget0
    injection hget0 with hsess
    subst hsess
    exact absurd hp0 (hfail db1 summ)

/-- C2 witness: finalizing over a database that lacks the class makes
    persistence return `None`; the store is untouched and an error reported. -/
theorem failed_persist_preserves_session_witness :
    stNoClass.store "c1" = some sessDup ∧
    (∀ (db1 : DB) (summ : Summary),
      persist_attendance stNoClass.db sessDup ≠ Except.ok (db1, some summ)) ∧
    ((receive "TEACHER" "t1" stNoClass (Inbound.envelope (some "DONE") payloadC1)).1.store =
        stNoClass.store ∧
      ∃ m, Effect.sendSelf (Frame.error m) ∈
        (receive "TEACHER" "t1" stNoClass (Inbound.envelope (some "DONE") payloadC1)).2) := by
  have hfail : ∀ (db1 : DB) (summ : Summary),
      persist_attendance stNoClass.db sessDup ≠ Except.ok (db1, some summ) := by
    intro db1 summ hcontra
    rw [show persist_attendance stNoClass.db sessDup =
      Except.ok (⟨[], [], []⟩, none) from rfl] at hcontra
    simp at hcontra
  exact ⟨rfl, hfail,
    failed_persist_preserves_session "TEACHER" "t1" stNoClass payloadC1 "c1" sessDup
      rfl rfl hfail⟩

end Attendance

namespace Attendance

/-! ## Unfolding equations for persist_attendance -/

theorem persist_attendance_none_class {db : DB} {sess : Session}
    (h : getClass db sess.classId = none) :
    persist_attendance db sess = Except.ok (db, none) := by
  unfold persist_attendance
  rw [h]

theorem persist_attendance_some_class {db : DB} {sess : Session} {cls : Cls}
    (h : getClass db sess.classId = some cls) :
    persist_attendance db sess =
      match createRecords db sess.sessionId sess.classId
          (markAbsent sess.attendance cls.students) with
      | Except.error e => Except.error e
      | Except.ok dbn =>
          Except.ok (dbn,
            some ⟨countStatus (markAbsent sess.attendance cls.students) "present",
              countStatus (markAbsent sess.attendance cls.students) "absent",
              (markAbsent sess.attendance cls.students).length⟩) := by
  unfold persist_attendance
  rw [h]

/-- C6 counterexample: a teacher starts a session and marks `s1` with the
    unvalidated status "late"; the summary then reports present 0, absent 0,
    total 1, so present + absent ≠ total even though the mapping was produced
    only by start and mark operations. -/
theorem summary_counts_cex :
    (receive "TEACHER" "t1"
      (applyOp (applyOp stA (Op.start "t1" "c1" "sess1" "ts0"))
        (Op.ws "TEACHER" "t1"
          (Inbound.envelope (some "ATTENDANCE_MARKED") ⟨some "c1", some "s1", some "late"⟩)))
      (Inbound.envelope (some "TODAY_SUMMARY") ⟨some "c1", none, none⟩)).2 =
      [Effect.broadcast (Frame.summary "c1" 0 0 1)] ∧ (0 : Nat) + 0 ≠ 1 :=
  ⟨rfl, by decide⟩

/-- C6 (amended): the summary broadcast derives its counts from the mapping
    at query time, and present + absent = total = |attendance| holds for
    every session whose status values are all "present" or "absent"; since
    mark does not validate the status, any other non-empty status string
    breaks the identity. -/
theorem summary_counts_partition (role : String) (st : GState) (p : Payload) (c : String)
    (sess : Session) (hrole : role = "TEACHER") (hc : p.classId = some c)
    (hne : c.isEmpty = false) (hs : st.store c = some sess)
    (hvals : ∀ e ∈ sess.attendance, e.2 = "present" ∨ e.2 = "absent") :
    (handle_today_summary role st p).2 =
      [Effect.broadcast (Frame.summary c (countStatus sess.attendance "present")
        (countStatus sess.attendance "absent") sess.attendance.length)] ∧
    countStatus sess.attendance "present" + countStatus sess.attendance "absent" =
      sess.attendance.length := by
  constructor
  · unfold handle_today_summary
    rw [if_neg (not_not_intro hrole), if_neg (by rw [hc]; simp [truthy, hne]), hc]
    rw [show get_active_session st.store ((some c).getD "") = some sess from hs]
    rfl
  · exact countStatus_partition hvals

/-- C6 witness: the amended statement evaluated on a session with one
    present and one absent mark: counts 1 + 1 = 2 = |attendance|. -/
theorem summary_counts_partition_witness :
    stPA.store "c1" = some sessPA ∧
    (∀ e ∈ sessPA.attendance, e.2 = "present" ∨ e.2 = "absent") ∧
    ((handle_today_summary "TEACHER" stPA payloadC1).2 =
      [Effect.broadcast (Frame.summary "c1" (countStatus sessPA.attendance "present")
        (countStatus sessPA.attendance "absent") sessPA.attendance.length)] ∧
     countStatus sessPA.attendance "present" + countStatus sessPA.attendance "absent" =
       sessPA.attendance.length) :=
  ⟨rfl, by decide,
   summary_counts_partition "TEACHER" stPA payloadC1 "c1" sessPA rfl rfl rfl rfl (by decide)⟩

/-- C3 counterexample: retrying finalize of session `sess1` when its record
    for `s1` already exists raises IntegrityError instead of treating the
    duplicate key as already applied: the retry is answered with an ERROR
    frame, the session stays in the store and the database is unchanged — no
    duplicate row is created, but the retry does not complete successfully. -/
theorem finalize_retry_cex :
    persist_attendance dbDup sessDup =
      Except.error (dbDup, "IntegrityError: duplicate (session_id, student)") ∧
    (receive "TEACHER" "t1" stDup (Inbound.envelope (some "DONE") payloadC1)).2 =
      [Effect.sendSelf (Frame.error "IntegrityError: duplicate (session_id, student)")] ∧
    (receive "TEACHER" "t1" stDup (Inbound.envelope (some "DONE") payloadC1)).1.store "c1" =
      some sessDup :=
  ⟨rfl, rfl, rfl⟩

/-- C3 (amended): finalize never creates duplicate (sessionId, studentId)
    records — on a database satisfying the uniqueness invariant, both a
    successful and a failing run of persistence preserve it, the offending
    insert raising instead of inserting; but a duplicate-key failure is not
    treated as success, so the retry errors rather than completing (see the
    counterexample). -/
theorem finalize_never_duplicates (db : DB) (sess : Session) (h : PairsNodup db.records) :
    (∀ (db1 : DB) (osumm : Option Summary),
      persist_attendance db sess = Except.ok (db1, osumm) → PairsNodup db1.records) ∧
    (∀ (db1 : DB) (m : String),
      persist_attendance db sess = Except.error (db1, m) → PairsNodup db1.records) := by
  constructor
  · intro db1 osumm hok
    cases hgc : getClass db sess.classId with
    | none =>
      rw [persist_attendance_none_class hgc] at hok
      simp only [Except.ok.injEq, Prod.mk.injEq] at hok
      obtain ⟨h1, -⟩ := hok
      rw [← h1]
      exact h
    | some cls =>
      rw [persist_attendance_some_class hgc] at hok
      cases hcr : createRecords db sess.sessionId sess.classId
          (markAbsent sess.attendance cls.students) with
      | error e =>
        rw [hcr] at hok
        simp at hok
      | ok db2 =>
        rw [hcr] at hok
        simp only [Except.ok.injEq, Prod.mk.injEq] at hok
        obtain ⟨hdb, -⟩ := hok
        rw [← hdb]
        exact createRecords_ok_pairsNodup h hcr
  · intro db1 m herr
    cases hgc : getClass db sess.classId with
    | none =>
      rw [persist_attendance_none_class hgc] at herr
      cases herr
    | some cls =>
      rw [persist_attendance_some_class hgc] at herr
      cases hcr : createRecords db sess.sessionId sess.classId
          (markAbsent sess.attendance cls.students) with
      | error e =>
        rw [hcr] at herr
        simp only [Except.error.injEq] at herr
        exact createRecords_error_pairsNodup h (herr ▸ hcr)
      | ok db2 =>
        rw [hcr] at herr
        simp at herr

/-- C3 witness: the amended statement evaluated for the clean database `dbA`
    and the marked session of `clsA`. -/
theorem finalize_never_duplicates_witness :
    PairsNodup dbA.records ∧
    (∀ (db1 : DB) (osumm : Option Summary),
      persist_attendance dbA sessMarked = Except.ok (db1, osumm) → PairsNodup db1.records) ∧
    (∀ (db1 : DB) (m : String),
      persist_attendance dbA sessMarked = Except.error (db1, m) → PairsNodup db1.records) :=
  ⟨List.Pairwise.nil, (finalize_never_duplicates dbA sessMarked List.Pairwise.nil).1,
   (finalize_never_duplicates dbA sessMarked List.Pairwise.nil).2⟩

end Attendance

namespace Attendance

/-- C4: when finalize succeeds for a class whose enrolled students are real
    users (as the enrollment foreign keys guarantee) and the attendance
    mapping has unique keys (a dict invariant), the rows appended to the
    database contain exactly one record per enrolled student, and for every
    enrolled student absent from the attendance mapping that single record
    carries status "absent" and the session's id. -/
theorem finalize_absent_defaults (db db1 : DB) (sess : Session) (cls : Cls) (summ : Summary)
    (hcls : getClass db sess.classId = some cls)
    (husers : ∀ s ∈ cls.students, userExists db s = true)
    (hatt : (dictKeys sess.attendance).Nodup)
    (hok : persist_attendance db sess = Except.ok (db1, some summ)) :
    db1.records = db.records ++ entriesRecords db.users sess.sessionId sess.classId
      (markAbsent sess.attendance cls.students) ∧
    (∀ s ∈ cls.students,
      ((entriesRecords db.users sess.sessionId sess.classId
        (markAbsent sess.attendance cls.students)).filter
          (fun r => r.student == s)).length = 1) ∧
    (∀ s ∈ cls.students, dictGet sess.attendance s = none →
      ∀ r ∈ entriesRecords db.users sess.sessionId sess.classId
          (markAbsent sess.attendance cls.students),
        r.student = s → r.status = "absent" ∧ r.session_id = sess.sessionId) := by
  refine ⟨?_, ?_, ?_⟩
  · rw [persist_attendance_some_class hcls] at hok
    cases hcr : createRecords db sess.sessionId sess.classId
        (markAbsent sess.attendance cls.students) with
    | error e =>
      rw [hcr] at hok
      simp at hok
    | ok db2 =>
      rw [hcr] at hok
      simp only [Except.ok.injEq, Prod.mk.injEq] at hok
      obtain ⟨hdb, -⟩ := hok
      rw [← hdb, createRecords_ok hcr]
  · intro s hsmem
    rw [entriesRecords_count_student, filter_contains_key (husers s hsmem)]
    exact countKey_eq_one_of_nodup (markAbsent_keys_nodup hatt) (markAbsent_mem_keys hsmem)
  · intro s hsmem hnone r hr hstu
    obtain ⟨hsid, -, hmem⟩ := entriesRecords_mem hr
    refine ⟨?_, hsid⟩
    have habs : dictGet (markAbsent sess.attendance cls.students) s = some "absent" :=
      markAbsent_get_absent hsmem hnone
    have hval : dictGet (markAbsent sess.attendance cls.students) r.student = some r.status :=
      dictGet_mem_of_nodup (markAbsent_keys_nodup hatt) hmem
    rw [hstu, habs] at hval
    injection hval with h2
    exact h2.symm

/-- C4 witness: finalizing the session of `clsA` in which only `s1` was
    marked writes one row for `s1` (present) and one for the unmarked `s2`
    with status "absent". -/
theorem finalize_absent_defaults_witness :
    getClass dbA sessMarked.classId = some clsA ∧
    (∀ s ∈ clsA.students, userExists dbA s = true) ∧
    (dictKeys sessMarked.attendance).Nodup ∧
    persist_attendance dbA sessMarked =
      Except.ok (⟨dbA.classes, dbA.users, [⟨"sess1", "c1", "s1", "present"⟩,
        ⟨"sess1", "c1", "s2", "absent"⟩]⟩, some ⟨1, 1, 2⟩) ∧
    ((⟨dbA.classes, dbA.users, [⟨"sess1", "c1", "s1", "present"⟩,
        ⟨"sess1", "c1", "s2", "absent"⟩]⟩ : DB).records =
      dbA.records ++ entriesRecords dbA.users sessMarked.sessionId sessMarked.classId
        (markAbsent sessMarked.attendance clsA.students) ∧
    (∀ s ∈ clsA.students,
      ((entriesRecords dbA.users sessMarked.sessionId sessMarked.classId
        (markAbsent sessMarked.attendance clsA.students)).filter
          (fun r => r.student == s)).length = 1) ∧
    (∀ s ∈ clsA.students, dictGet sessMarked.attendance s = none →
      ∀ r ∈ entriesRecords dbA.users sessMarked.sessionId sessMarked.classId
          (markAbsent sessMarked.attendance clsA.students),
        r.student = s → r.status = "absent" ∧ r.session_id = sessMarked.sessionId)) := by
  have h := finalize_absent_defaults dbA
    ⟨dbA.classes, dbA.users, [⟨"sess1", "c1", "s1", "present"⟩,
      ⟨"sess1", "c1", "s2", "absent"⟩]⟩
    sessMarked clsA ⟨1, 1, 2⟩ rfl (by decide) (by decide) rfl
  exact ⟨rfl, by decide, by decide, rfl, h.1, h.2.1, h.2.2⟩

/-- C5 counterexample: "u9" is a real user but is not enrolled in the class;
    finalizing a session whose attendance mentions "u9" writes an attendance
    row for "u9" instead of skipping it. -/
theorem skip_unknown_cex :
    getClass dbU sessU.classId = some clsEmpty ∧ "u9" ∉ clsEmpty.students ∧
    persist_attendance dbU sessU =
      Except.ok (⟨dbU.classes, dbU.users, [⟨"sessX", "c1", "u9", "present"⟩]⟩,
        some ⟨1, 0, 1⟩) :=
  ⟨rfl, by decide, rfl⟩

/-- C5 (amended): an id in the attendance mapping that does not resolve to a
    real user is silently skipped — no record is ever written for it, whether
    persistence succeeds or fails, and dropping such an entry from the list
    the creation loop processes leaves the loop's outcome unchanged; an id
    resolving to a real user is written even when not enrolled in the class
    (see the counterexample). -/
theorem skip_unresolved_user_ids (db : DB) (sess : Session) (sid : String)
    (hu : userExists db sid = false)
    (hclean : ∀ r ∈ db.records, r.student ≠ sid) :
    (∀ (db1 : DB) (osumm : Option Summary),
      persist_attendance db sess = Except.ok (db1, osumm) →
      ∀ r ∈ db1.records, r.student ≠ sid) ∧
    (∀ (db1 : DB) (m : String),
      persist_attendance db sess = Except.error (db1, m) →
      ∀ r ∈ db1.records, r.student ≠ sid) ∧
    (∀ (s c v : String) (l1 l2 : Dict),
      createRecords db s c (l1 ++ (sid, v) :: l2) = createRecords db s c (l1 ++ l2)) := by
  refine ⟨?_, ?_, ?_⟩
  · intro db1 osumm hok
    cases hgc : getClass db sess.classId with
    | none =>
      rw [persist_attendance_none_class hgc] at hok
      simp only [Except.ok.injEq, Prod.mk.injEq] at hok
      obtain ⟨h1, -⟩ := hok
      rw [← h1]
      exact hclean
    | some cls =>
      rw [persist_attendance_some_class hgc] at hok
      cases hcr : createRecords db sess.sessionId sess.classId
          (markAbsent sess.attendance cls.students) with
      | error e =>
        rw [hcr] at hok
        simp at hok
      | ok db2 =>
        rw [hcr] at hok
        simp only [Except.ok.injEq, Prod.mk.injEq] at hok
        obtain ⟨hdb, -⟩ := hok
        rw [← hdb]
        exact (createRecords_not_student hu hclean).1 hcr
  · intro db1 m herr
    cases hgc : getClass db sess.classId with
    | none =>
      rw [persist_attendance_none_class hgc] at herr
      cases herr
    | some cls =>
      rw [persist_attendance_some_class hgc] at herr
      cases hcr : createRecords db sess.sessionId sess.classId
          (markAbsent sess.attendance cls.students) with
      | error e =>
        rw [hcr] at herr
        simp only [Except.error.injEq] at herr
        exact (createRecords_not_student hu hclean).2 (herr ▸ hcr)
      | ok db2 =>
        rw [hcr] at herr
        simp at herr
  · intro s c v l1 l2
    exact createRecords_skip l2 hu

/-- C5 witness: the amended statement evaluated for the unknown id "ghost"
    over the clean database `dbA`. -/
theorem skip_unresolved_user_ids_witness :
    userExists dbA "ghost" = false ∧
    (∀ r ∈ dbA.records, r.student ≠ "ghost") ∧
    (∀ (db1 : DB) (osumm : Option Summary),
      persist_attendance dbA sessGhost = Except.ok (db1, osumm) →
      ∀ r ∈ db1.records, r.student ≠ "ghost") ∧
    (∀ (s c v : String) (l1 l2 : Dict),
      createRecords dbA s c (l1 ++ ("ghost", v) :: l2) = createRecords dbA s c (l1 ++ l2)) := by
  have hclean : ∀ r ∈ dbA.records, r.student ≠ "ghost" := by
    intro r hr
    simp [dbA] at hr
  have h := skip_unresolved_user_ids dbA sessGhost "ghost" (by decide) hclean
  exact ⟨by decide, hclean, h.1, h.2.2⟩

end Attendance
